import Mathlib

/-!
Verification of the `dxf2html` renderer (`src/ezdxf/dxf2html.py`).

The renderer is a pure tree-to-text function over an in-memory document
model (sections of tag records).  We embed the document model shallowly:
tag values and header-variable coordinates are carried in their textual
(`ustr`) form, since string conversion is an external collaborator of the
renderer.  Fallible lookups (the external code→type classifier) are
embedded with `Option`: a `none` models an uncaught Python exception, and
every renderer threads it through `Option.map` / `mapM`, mirroring the
absence of any `try/except` in the source.
-/

namespace Dxf2Html

/-- Tag record: an integer group code and a value in its textual form. -/
structure Tag where
  code : Int
  value : String
deriving DecidableEq

/-- Python types a tag value can have, the keys of `TAG_TYPES`. -/
inductive PyType where
  | int
  | float
  | str
deriving DecidableEq

/-- Modelled from the spec: the external code→type classifier (`tag_type`
from `ezdxf.tags`, an excluded collaborator).  It maps a DXF group code to
the Python type of its value following the standard DXF group-code ranges;
a code outside the registry is unclassified and the lookup raises, which
the embedding renders as `none`. -/
def tag_type (code : Int) : Option PyType :=
  if 0 ≤ code ∧ code < 10 then some .str
  else if 10 ≤ code ∧ code < 60 then some .float
  else if 60 ≤ code ∧ code < 100 then some .int
  else if code = 100 ∨ code = 102 ∨ code = 105 then some .str
  else if 110 ≤ code ∧ code < 150 then some .float
  else if 160 ≤ code ∧ code < 180 then some .int
  else if 210 ≤ code ∧ code < 240 then some .float
  else if 270 ≤ code ∧ code < 300 then some .int
  else if 300 ≤ code ∧ code < 370 then some .str
  else if 370 ≤ code ∧ code < 390 then some .int
  else if 390 ≤ code ∧ code < 400 then some .str
  else if 400 ≤ code ∧ code < 410 then some .int
  else if 410 ≤ code ∧ code < 420 then some .str
  else if 420 ≤ code ∧ code < 430 then some .int
  else if 430 ≤ code ∧ code < 440 then some .str
  else if 440 ≤ code ∧ code < 460 then some .int
  else if 460 ≤ code ∧ code < 470 then some .float
  else if 470 ≤ code ∧ code < 482 then some .str
  else if 999 ≤ code ∧ code < 1010 then some .str
  else if 1010 ≤ code ∧ code < 1060 then some .float
  else if 1060 ≤ code ∧ code < 1072 then some .int
  else none

/-- Modelled from the spec: Python string method `upper`, mapping every
character of the string to upper case (an excluded string utility). -/
def py_upper (s : String) : String := ⟨s.data.map Char.toUpper⟩

/-- Modelled from the spec: the HTML-escaping utility (`escape` from
`ezdxf.c23`, an excluded collaborator), acting on one character. -/
def escapeChar (c : Char) : List Char :=
  if c = '&' then ['&', 'a', 'm', 'p', ';']
  else if c = '<' then ['&', 'l', 't', ';']
  else if c = '>' then ['&', 'g', 't', ';']
  else [c]

/-- Character-list core of `escape`. -/
def escapeList : List Char → List Char
  | [] => []
  | c :: cs => escapeChar c ++ escapeList cs

/-- Modelled from the spec: HTML-escape a string, replacing each of the
markup-breaking characters by its character-entity form. -/
def escape (s : String) : String := ⟨escapeList s.data⟩

-- Handle definitions
def HANDLE_DEFINITIONS : List Int :=
  [5, 105] ++ (List.range 10).map (fun (i : Nat) => 320 + (i : Int))

-- Handle links
def HANDLE_LINKS : List Int :=
  (List.range 40).map (fun (i : Nat) => 330 + (i : Int)) ++ [480, 481, 1005]

-- Tag groups
def GENERAL_MARKER : Int := 0
def SUBCLASS_MARKER : Int := 100
def APP_DATA_MARKER : Int := 102
def EXT_DATA_MARKER : Int := 1001
def GROUP_MARKERS : List Int :=
  [GENERAL_MARKER, SUBCLASS_MARKER, APP_DATA_MARKER, EXT_DATA_MARKER]

def MARKER_TEMPLATE (tag : String) : String :=
  "<div class=\"tag-group-marker\">" ++ tag ++ "</div>"

def TAG_TEMPLATE (code type_s value : String) : String :=
  "<div class=\"dxf-tag\"><span class=\"tag-code\">" ++ code ++
  "</span> <span class=\"var-type\">" ++ type_s ++
  "</span> <span class=\"tag-value\">" ++ value ++ "</span></div>"

def TAG_TEMPLATE_HANDLE_DEF (code type_s value : String) : String :=
  "<div class=\"dxf-tag\"><span id=\"" ++ value ++
  "\" class=\"tag-code\">" ++ code ++
  "</span> <span class=\"var-type\">" ++ type_s ++
  "</span> <span class=\"tag-value\">" ++ value ++ "</span></div>"

def TAG_TEMPLATE_HANDLE_LINK (code type_s value : String) : String :=
  "<div class=\"dxf-tag\"><span class=\"tag-code\">" ++ code ++ " " ++
  type_s ++ "</span> <a class=\"tag-value\" href=\"#" ++ value ++
  "\">" ++ value ++ "</a></div>"

def ENTITY_TEMPLATE (name tags : String) : String :=
  "<div class=\"dxf-entity\"><h3>" ++ name ++ "</h3>\n" ++ tags ++ "\n</div>"

def TOC_ENTRY_TPL (link name : String) : String :=
  "<li><a href=\"#" ++ link ++ "\" >" ++ name ++ "</a></li>"

def TOC_TPL (entries : String) : String :=
  "<h2>Table of Contents</h2>\n<ul>\n" ++ entries ++ "\n</ul>"

/-- Lookup table `TAG_TYPES`, mapping a Python value type to its display
label; in the source it is a dict keyed by the three type objects. -/
def TAG_TYPES : PyType → String
  | .int => "<int>"
  | .float => "<float>"
  | .str => "<str>"

def tag_type_str (code : Int) : Option String :=
  (tag_type code).map TAG_TYPES

/-- Local helper `tag2html` of `tags2html`, lifted to the top level:
selects the row template by handle classification of the code and fills
in code, escaped type label and escaped value. -/
def tag2html (tag : Tag) : Option String :=
  let tpl :=
    if tag.code ∈ HANDLE_DEFINITIONS then TAG_TEMPLATE_HANDLE_DEF
    else if tag.code ∈ HANDLE_LINKS then TAG_TEMPLATE_HANDLE_LINK
    else TAG_TEMPLATE
  (tag_type_str tag.code).map fun ts =>
    tpl (toString tag.code) (escape ts) (escape tag.value)

/-- Local helper `group_marker` of `tags2html`: wrap a single rendered
row in the marker container when its code is a group marker. -/
def group_marker (tag : Tag) (tag_html : String) : String :=
  if tag.code ∉ GROUP_MARKERS then tag_html else MARKER_TEMPLATE tag_html

def tags2html (tags : List Tag) : Option String := do
  let tag_strings ← tags.mapM fun tag => (tag2html tag).map (group_marker tag)
  return "<div class=\"dxf-tags\">\n" ++ String.intercalate "\n" tag_strings ++ "\n</div>"

/-- Header-variable value: either a point (the textual forms of its 2 or 3
coordinates) or a scalar value in its textual form. -/
inductive HdrValue where
  | point (coords : List String)
  | scalar (s : String)
deriving DecidableEq

/-- Header variable: the originating group code and the value. -/
structure HeaderVar where
  code : Int
  value : HdrValue
deriving DecidableEq

/-- Modelled from the spec: Python `str` of a coordinate tuple whose
elements are given by their textual forms (`ustr(hdrvar.getpoint())`). -/
def pyTupleStr (coords : List String) : String :=
  match coords with
  | [c] => "(" ++ c ++ ",)"
  | _ => "(" ++ String.intercalate ", " coords ++ ")"

/-- Python indexing of the pair `(a, b)` with an `Int` index: `0` and `-2`
select `a`, `1` and `-1` select `b`, anything else raises `IndexError`. -/
def pyPairIndex (a b : String) (i : Int) : Option String :=
  if i = 0 ∨ i = -2 then some a
  else if i = 1 ∨ i = -1 then some b
  else none

/-- Local helper `var2str` of `hdrvars2html`: textual form of the value. -/
def var2str (v : HeaderVar) : String :=
  match v.value with
  | .point coords => pyTupleStr coords
  | .scalar s => s

/-- Local helper `vartype` of `hdrvars2html`: display type label, selected
for a point by tuple length minus 2 indexing the pair of point labels, and
for a scalar by the external classifier on the originating code. -/
def vartype (v : HeaderVar) : Option String :=
  match v.value with
  | .point coords => pyPairIndex "<point 2D>" "<point 3D>" ((coords.length : Int) - 2)
  | .scalar _ => tag_type_str v.code

/-- One header row: the plain tag-row template filled with the variable
name, the escaped type label and the escaped textual value. -/
def hdrRow (name : String) (v : HeaderVar) : Option String :=
  (vartype v).map fun ty => TAG_TEMPLATE name (escape ty) (escape (var2str v))

def hdrvars2html (hdrvars : List (String × HeaderVar)) : Option String := do
  let varstrings ← hdrvars.mapM fun p => hdrRow p.1 p.2
  return "<div id=\"dxf-header\" class=\"dxf-header\">\n" ++
    String.intercalate "\n" varstrings ++ "\n</div>"

/-- Entity (also table-header pseudo-entity and block start/end records):
a DXF type name and an ordered tag sequence. -/
structure Entity where
  dxftype : String
  tags : List Tag
deriving DecidableEq

def entity2html (entity : Entity) : Option String :=
  (tags2html entity.tags).map fun tags_html =>
    ENTITY_TEMPLATE entity.dxftype tags_html

def entities2html (entities : List Entity) : Option String := do
  let entity_strings ← entities.mapM entity2html
  return "<div class=\"dxf-entities\">\n" ++ String.intercalate "\n" entity_strings ++ "\n</div>"

/-- Table: a name, the header tag sequence (`_table_header`) and the
entries, which iteration yields as entities. -/
structure Table where
  name : String
  table_header : List Tag
  entries : List Entity
deriving DecidableEq

def create_table_navigation (_table_section : List Table) : String := ""

def table2html (table : Table) (navigation : String := "") : Option String := do
  let header_tags ← tags2html table.table_header
  let header := ENTITY_TEMPLATE "TABLE HEADER" header_tags
  let entries ← entities2html table.entries
  return "<div class=\"dxf-block\">\n<h2>" ++ py_upper table.name ++ "</h2>\n" ++
    navigation ++ "\n" ++ header ++ "\n" ++ entries ++ "\n</div>"

def tables2html (tables : List Table) : Option String := do
  let navigation := create_table_navigation tables
  let tables_html_strings ← tables.mapM fun t => table2html t navigation
  return "<div id=\"dxf-tables\" class=\"dxf-tables\">" ++
    String.intercalate "\n" tables_html_strings ++ "</div>"

/-- Block layout: a name, the start entity, the end entity and the
contained entities (iteration over the layout yields the latter). -/
structure BlockLayout where
  name : String
  block : Entity
  endblk : Entity
  entities : List Entity
deriving DecidableEq

def block2html (block_layout : BlockLayout) : Option String := do
  let block_html ← entity2html block_layout.block
  let entities_html ← entities2html block_layout.entities
  let endblk_html ← entity2html block_layout.endblk
  return "<div class=\"dxf-block\">\n<h2>" ++ block_layout.name ++ "</h2>\n" ++
    block_html ++ "\n" ++ entities_html ++ "\n" ++ endblk_html ++ "\n</div>"

def blocks2html (blocks : List BlockLayout) : Option String := do
  let block_strings ← blocks.mapM block2html
  return "<div id=\"dxf-blocks\" class=\"dxf-blocks\">\n" ++
    String.intercalate "\n" block_strings ++ "\n</div>"

/-- Section of the document model.  Dispatch in the source is by the
section's `name` (duck typing); the model therefore carries the name and
every attribute a kind may expose, defaulted to empty where unused. -/
structure Section where
  name : String
  hdrvars : List (String × HeaderVar) := []
  entities : List Entity := []
  tables : List Table := []
  blocks : List BlockLayout := []
  tags : List Tag := []

/-- Section dispatcher: chooses the renderer by the section's kind name
and injects the rendered body into the pre-built wrapper template. -/
def section2html (s : Section) (section_template : String → String) : Option String :=
  if s.name = "header" then (hdrvars2html s.hdrvars).map section_template
  else if s.name = "classes" ∨ s.name = "objects" ∨ s.name = "entities" then
    (entities2html s.entities).map section_template
  else if s.name = "tables" then (tables2html s.tables).map section_template
  else if s.name = "blocks" then (blocks2html s.blocks).map section_template
  else (tags2html s.tags).map section_template

def SECTION_ID (i : Int) : String := "section_" ++ toString i

/-- Section wrapper builder: anchored, titled container with a navigation
strip referencing the previous, current and next section anchors. -/
def create_section_html_template (name : String) (index : Int) : String → String :=
  let prev_id := SECTION_ID (index - 1)
  let this_id := SECTION_ID index
  let next_id := SECTION_ID (index + 1)
  fun body =>
    "<div id=\"" ++ this_id ++ "\" class=\"dxf-section\"><h2>SECTION: " ++
    py_upper name ++ "</h2>\n<div><a href=\"#" ++ prev_id ++
    "\">previous</a> <a href=\"#" ++ next_id ++ "\">next</a></div>\n" ++
    body ++ "\n</div>\n"

/-- Document model: optional source filename and ordered sections. -/
structure Drawing where
  filename : Option String := none
  sections : List Section := []

def sections2html (dwg : Drawing) : Option String := do
  let sections_html ← dwg.sections.enum.mapM fun p =>
    section2html p.2 (create_section_html_template p.2.name (p.1 : Int))
  return "<div class=\"dxf-sections\">\n" ++ String.intercalate "\n" sections_html ++ "\n</div>"

def sections_toc_as_html (dwg : Drawing) : String :=
  TOC_TPL (String.intercalate "\n" (dwg.sections.enum.map fun p =>
    TOC_ENTRY_TPL (SECTION_ID (p.1 : Int)) (py_upper p.2.name)))

/-- Modelled from the spec: `os.path.basename`, the part of the path after
the last separator (an excluded OS collaborator). -/
def basename (path : String) : String :=
  match (path.splitOn "/").getLast? with
  | some b => b
  | none => path

/-- Modelled from the spec: the stem of `os.path.splitext`, dropping the
final extension (an excluded OS collaborator). -/
def splitext_stem (filename : String) : String :=
  match filename.data.reverse.findIdx? (fun c => c = '.') with
  | some i => ⟨(filename.data.take (filename.data.length - 1 - i))⟩
  | none => filename

/-- Local helper `get_name` of `dxf2html`: derived document title, the
source base filename without extension, or "unknown" without filename. -/
def get_name (dwg : Drawing) : String :=
  match dwg.filename with
  | none => "unknown"
  | some filename => splitext_stem (basename filename)

def HTML_TEMPLATE (name toc dxf_file : String) : String :=
  "<!DOCTYPE html>\n<html>\n<head>\n<meta charset=\"utf-8\">\n" ++
  "<link rel=\"stylesheet\" href=\"dxf2html.css\">\n" ++
  "<script src=\"dxf2html.js\"></script>\n<title>" ++ name ++
  ".dxf</title>\n</head>\n<body>\n<h1>DXF-FILE: " ++ name ++
  ".dxf</h1>\n<div id=\"toc\">\n" ++ toc ++
  "\n<div>\n<div id=\"dxf-file\">\n" ++ dxf_file ++ "\n</div>\n</body>\n"

/-- Page assembler: structured HTML view of the whole document. -/
def dxf2html (dwg : Drawing) : Option String := do
  let dxf_file ← sections2html dwg
  let toc := sections_toc_as_html dwg
  return HTML_TEMPLATE (get_name dwg) toc dxf_file

/-- A character that is none of the three markup-breaking characters. -/
def cleanChar (c : Char) : Prop := c ≠ '&' ∧ c ≠ '<' ∧ c ≠ '>'

instance (c : Char) : Decidable (cleanChar c) := by
  unfold cleanChar; infer_instance

/-! ### Helper lemmas about `escape` -/

theorem escapeChar_no_lt (c : Char) : '<' ∉ escapeChar c := by
  by_cases h1 : c = '&'
  · subst h1; decide
  · by_cases h2 : c = '<'
    · subst h2; decide
    · by_cases h3 : c = '>'
      · subst h3; decide
      · simp [escapeChar, h1, h2, h3, eq_comm]

theorem escapeChar_no_gt (c : Char) : '>' ∉ escapeChar c := by
  by_cases h1 : c = '&'
  · subst h1; decide
  · by_cases h2 : c = '<'
    · subst h2; decide
    · by_cases h3 : c = '>'
      · subst h3; decide
      · simp [escapeChar, h1, h2, h3, eq_comm]

theorem escapeList_no_lt : ∀ l : List Char, '<' ∉ escapeList l := by
  intro l
  induction l with
  | nil => simp [escapeList]
  | cons c cs ih =>
    simp only [escapeList, List.mem_append]
    rintro (h | h)
    · exact escapeChar_no_lt c h
    · exact ih h

theorem escapeList_no_gt : ∀ l : List Char, '>' ∉ escapeList l := by
  intro l
  induction l with
  | nil => simp [escapeList]
  | cons c cs ih =>
    simp only [escapeList, List.mem_append]
    rintro (h | h)
    · exact escapeChar_no_gt c h
    · exact ih h

theorem amp_head_split {tail A w : List Char} (h : ('&' :: tail) = A ++ '&' :: w)
    (hne : '&' ∉ tail) : A = [] ∧ w = tail := by
  rcases A with _ | ⟨a0, A⟩
  · simp only [List.nil_append] at h
    injection h with _ h2
    exact ⟨rfl, h2.symm⟩
  · rw [List.cons_append] at h
    injection h with h1 h2
    exfalso
    apply hne
    rw [h2]
    simp

/-- Every occurrence of an ampersand in an escaped string starts one of
the three character entities. -/
theorem escapeList_amp : ∀ (l A R : List Char), escapeList l = A ++ '&' :: R →
    ['a', 'm', 'p', ';'] <+: R ∨ ['l', 't', ';'] <+: R ∨ ['g', 't', ';'] <+: R := by
  intro l
  induction l with
  | nil =>
    intro A R h
    exact absurd h.symm (by simp [escapeList])
  | cons c cs ih =>
    intro A R h
    have h' : escapeChar c ++ escapeList cs = A ++ '&' :: R := h
    rcases List.append_eq_append_iff.mp h' with ⟨w, _, hw2⟩ | ⟨w, hw1, hw2⟩
    · exact ih w R hw2
    · rcases w with _ | ⟨x, w⟩
      · exact ih [] R (by simpa using hw2.symm)
      · rw [List.cons_append] at hw2
        injection hw2 with hx hR
        subst hx
        by_cases hamp : c = '&'
        · subst hamp
          rw [show escapeChar '&' = ['&', 'a', 'm', 'p', ';'] from rfl] at hw1
          obtain ⟨_, hw⟩ := amp_head_split hw1 (by decide)
          exact Or.inl ⟨escapeList cs, by rw [hR, hw]⟩
        · by_cases hlt : c = '<'
          · subst hlt
            rw [show escapeChar '<' = ['&', 'l', 't', ';'] from rfl] at hw1
            obtain ⟨_, hw⟩ := amp_head_split hw1 (by decide)
            exact Or.inr (Or.inl ⟨escapeList cs, by rw [hR, hw]⟩)
          · by_cases hgt : c = '>'
            · subst hgt
              rw [show escapeChar '>' = ['&', 'g', 't', ';'] from rfl] at hw1
              obtain ⟨_, hw⟩ := amp_head_split hw1 (by decide)
              exact Or.inr (Or.inr ⟨escapeList cs, by rw [hR, hw]⟩)
            · rw [show escapeChar c = [c] from by simp [escapeChar, hamp, hlt, hgt]] at hw1
              rcases A with _ | ⟨a0, A⟩
              · rw [List.nil_append] at hw1
                injection hw1 with h1 _
                exact absurd h1 hamp
              · rw [List.cons_append] at hw1
                injection hw1 with _ h2
                exact absurd h2.symm (by simp)

theorem escapeList_clean : ∀ l : List Char, (∀ c ∈ l, cleanChar c) → escapeList l = l := by
  intro l
  induction l with
  | nil => intro _; rfl
  | cons c cs ih =>
    intro h
    obtain ⟨h1, h2, h3⟩ := h c (by simp)
    have hcs := ih (fun x hx => h x (by simp [hx]))
    simp [escapeList, escapeChar, h1, h2, h3, hcs]

theorem escape_clean_str {s : String} (h : ∀ c ∈ s.data, cleanChar c) : escape s = s := by
  show (⟨escapeList s.data⟩ : String) = s
  rw [escapeList_clean s.data h]

theorem digitChar_clean : ∀ k, k < 10 → cleanChar (Nat.digitChar k) := by decide

theorem toDigitsCore_clean : ∀ (f n : Nat) (ds : List Char),
    (∀ c ∈ ds, cleanChar c) → ∀ c ∈ Nat.toDigitsCore 10 f n ds, cleanChar c := by
  intro f
  induction f with
  | zero => intro n ds h; simpa [Nat.toDigitsCore] using h
  | succ f ih =>
    intro n ds h c hc
    have hd : cleanChar (Nat.digitChar (n % 10)) :=
      digitChar_clean _ (Nat.mod_lt _ (by decide))
    have hds : ∀ x ∈ Nat.digitChar (n % 10) :: ds, cleanChar x := by
      intro x hx
      rcases List.mem_cons.mp hx with rfl | hx'
      · exact hd
      · exact h x hx'
    unfold Nat.toDigitsCore at hc
    dsimp only at hc
    split at hc
    · exact hds c hc
    · exact ih (n / 10) _ hds c hc

theorem natRepr_clean (n : Nat) : ∀ c ∈ (Nat.repr n).data, cleanChar c := by
  intro c hc
  exact toDigitsCore_clean (n + 1) n [] (by simp) c hc

theorem intToString_clean (i : Int) : ∀ c ∈ (toString i).data, cleanChar c := by
  cases i with
  | ofNat n => exact natRepr_clean n
  | negSucc n =>
    intro c hc
    have : (toString (Int.negSucc n)).data = ('-' :: (Nat.repr (n + 1)).data) := rfl
    rw [this] at hc
    rcases List.mem_cons.mp hc with rfl | h
    · decide
    · exact natRepr_clean _ c h

theorem escape_toString_int (i : Int) : escape (toString i) = toString i :=
  escape_clean_str (intToString_clean i)

/-! ### Helper lemmas about `mapM` over `Option` and `enumFrom` -/

theorem mapM_option_some {α β : Type} (f : α → Option β) (da : α) (db : β) :
    ∀ l : List α, (∀ a ∈ l, (f a).isSome) →
      ∃ bs : List β, l.mapM f = some bs ∧ bs.length = l.length ∧
        ∀ i, i < l.length → f (l.getD i da) = some (bs.getD i db) := by
  intro l
  induction l with
  | nil => exact fun _ => ⟨[], rfl, by simp, fun i hi => absurd hi (by simp)⟩
  | cons a t ih =>
    intro h
    obtain ⟨b, hb⟩ := Option.isSome_iff_exists.mp (h a (List.mem_cons_self a t))
    obtain ⟨bs, h1, h2, h3⟩ := ih fun x hx => h x (List.mem_cons_of_mem a hx)
    refine ⟨b :: bs, by rw [List.mapM_cons, hb, h1]; rfl, by simp [h2], ?_⟩
    intro i hi
    cases i with
    | zero => simpa [List.getD_cons_zero] using hb
    | succ j =>
      simp only [List.getD_cons_succ]
      exact h3 j (by simpa using hi)

theorem mapM_option_none {α β : Type} (f : α → Option β) {x : α} :
    ∀ l : List α, x ∈ l → f x = none → l.mapM f = none := by
  intro l
  induction l with
  | nil => intro h; simp at h
  | cons a t ih =>
    intro hmem hfx
    rcases List.mem_cons.mp hmem with rfl | hmem'
    · rw [List.mapM_cons, hfx]; rfl
    · cases hfa : f a with
      | none => rw [List.mapM_cons, hfa]; rfl
      | some b => rw [List.mapM_cons, hfa, ih hmem' hfx]; rfl

theorem enumFrom_getD {α : Type} (d : α) :
    ∀ (l : List α) (n i : Nat), i < l.length →
      (List.enumFrom n l).getD i (0, d) = (n + i, l.getD i d) := by
  intro l
  induction l with
  | nil => intro n i hi; simp at hi
  | cons a t ih =>
    intro n i hi
    cases i with
    | zero => simp [List.enumFrom]
    | succ j =>
      have hj : j < t.length := by simpa using hi
      simp only [List.enumFrom, List.getD_cons_succ]
      rw [ih (n + 1) j hj]
      simp [Prod.mk.injEq]
      omega

theorem mem_enumFrom_pair {α : Type} {x : α} :
    ∀ (l : List α) (n : Nat), x ∈ l → ∃ i, (i, x) ∈ List.enumFrom n l := by
  intro l
  induction l with
  | nil => intro n h; simp at h
  | cons a t ih =>
    intro n hmem
    rcases List.mem_cons.mp hmem with rfl | h
    · exact ⟨n, by simp [List.enumFrom]⟩
    · obtain ⟨i, hi⟩ := ih (n + 1) h
      exact ⟨i, by simp [List.enumFrom, hi]⟩

/-! ### Helper lemmas about the handle code sets and templates -/

theorem mem_handle_defs {c : Int} :
    c ∈ HANDLE_DEFINITIONS ↔ c = 5 ∨ c = 105 ∨ (320 ≤ c ∧ c < 330) := by
  simp only [HANDLE_DEFINITIONS, List.mem_append, List.mem_cons, List.mem_map,
    List.mem_range, List.not_mem_nil, or_false]
  constructor
  · rintro (h | ⟨i, hi, rfl⟩)
    · rcases h with rfl | rfl
      · exact Or.inl rfl
      · exact Or.inr (Or.inl rfl)
    · exact Or.inr (Or.inr (by omega))
  · rintro (rfl | rfl | ⟨h1, h2⟩)
    · exact Or.inl (Or.inl rfl)
    · exact Or.inl (Or.inr rfl)
    · exact Or.inr ⟨(c - 320).toNat, by omega, by omega⟩

theorem mem_handle_links {c : Int} :
    c ∈ HANDLE_LINKS ↔ (330 ≤ c ∧ c < 370) ∨ c = 480 ∨ c = 481 ∨ c = 1005 := by
  simp only [HANDLE_LINKS, List.mem_append, List.mem_cons, List.mem_map,
    List.mem_range, List.not_mem_nil, or_false]
  constructor
  · rintro (⟨i, hi, rfl⟩ | h)
    · exact Or.inl (by omega)
    · exact Or.inr h
  · rintro (⟨h1, h2⟩ | h)
    · exact Or.inl ⟨(c - 330).toNat, by omega, by omega⟩
    · exact Or.inr h

theorem handle_links_not_defs {c : Int} (h : c ∈ HANDLE_LINKS) :
    c ∉ HANDLE_DEFINITIONS := by
  intro hd
  rw [mem_handle_links] at h
  rw [mem_handle_defs] at hd
  omega

theorem middle_isInfix (pre mid post : String) :
    mid.data <:+: (pre ++ mid ++ post).data := by
  refine ⟨pre.data, post.data, ?_⟩
  simp [String.data_append]

theorem handle_def_split (c t v : String) :
    TAG_TEMPLATE_HANDLE_DEF c t v =
      "<div class=\"dxf-tag\"><span " ++ ("id=\"" ++ v ++ "\"") ++
      (" class=\"tag-code\">" ++ c ++ "</span> <span class=\"var-type\">" ++ t ++
        "</span> <span class=\"tag-value\">" ++ v ++ "</span></div>") := by
  apply String.ext
  simp only [TAG_TEMPLATE_HANDLE_DEF, String.data_append, List.append_assoc,
    List.cons_append, List.nil_append]

theorem handle_link_split (c t v : String) :
    TAG_TEMPLATE_HANDLE_LINK c t v =
      ("<div class=\"dxf-tag\"><span class=\"tag-code\">" ++ c ++ " " ++ t ++
        "</span> <a class=\"tag-value\" ") ++
      ("href=\"#" ++ v ++ "\">" ++ v ++ "</a>") ++ "</div>" := by
  apply String.ext
  simp only [TAG_TEMPLATE_HANDLE_LINK, String.data_append, List.append_assoc,
    List.cons_append, List.nil_append]

theorem getD_map {α β : Type} (f : α → β) (da : α) (db : β) :
    ∀ (l : List α) (i : Nat), i < l.length → (l.map f).getD i db = f (l.getD i da) := by
  intro l
  induction l with
  | nil => intro i hi; simp at hi
  | cons a t ih =>
    intro i hi
    cases i with
    | zero => simp
    | succ j => simpa using ih j (by simpa using hi)

theorem snd_mem_of_mem_enumFrom {α : Type} {p : Nat × α} :
    ∀ (l : List α) (n : Nat), p ∈ List.enumFrom n l → p.2 ∈ l := by
  intro l
  induction l with
  | nil => intro n h; simp at h
  | cons a t ih =>
    intro n h
    rcases List.mem_cons.mp h with rfl | h'
    · simp
    · exact List.mem_cons_of_mem a (ih (n + 1) h')

theorem tags2html_eq (tags : List Tag) :
    tags2html tags = (tags.mapM fun tag => (tag2html tag).map (group_marker tag)).bind
      (fun tag_strings => some ("<div class=\"dxf-tags\">\n" ++
        String.intercalate "\n" tag_strings ++ "\n</div>")) := rfl

theorem tags2html_some (tags : List Tag) (h : ∀ t ∈ tags, (tag_type t.code).isSome) :
    ∃ out, tags2html tags = some out := by
  have hf : ∀ t ∈ tags, ((fun tag => (tag2html tag).map (group_marker tag)) t).isSome := by
    intro t ht
    obtain ⟨ty, hty⟩ := Option.isSome_iff_exists.mp (h t ht)
    simp [tag2html, tag_type_str, hty]
  obtain ⟨rows, h1, _, _⟩ := mapM_option_some _ ⟨0, ""⟩ "" tags hf
  exact ⟨"<div class=\"dxf-tags\">\n" ++ String.intercalate "\n" rows ++ "\n</div>",
    by rw [tags2html_eq, h1]; rfl⟩

theorem section2html_as_map (s : Section) (tpl : String → String) :
    section2html s tpl = (section2html s id).map tpl := by
  unfold section2html
  split_ifs <;> simp [Option.map_map, Function.comp]

theorem wrapper_infix_id (name : String) (index : Int) (body : String) :
    ("id=\"" ++ SECTION_ID index ++ "\"").data <:+:
      (create_section_html_template name index body).data := by
  refine ⟨("<div " : String).data,
    (" class=\"dxf-section\"><h2>SECTION: " ++ py_upper name ++ "</h2>\n<div><a href=\"#" ++
      SECTION_ID (index - 1) ++ "\">previous</a> <a href=\"#" ++ SECTION_ID (index + 1) ++
      "\">next</a></div>\n" ++ body ++ "\n</div>\n").data, ?_⟩
  simp only [create_section_html_template, String.data_append, List.append_assoc,
    List.cons_append, List.nil_append]

theorem wrapper_infix_prev (name : String) (index : Int) (body : String) :
    ("<a href=\"#" ++ SECTION_ID (index - 1) ++ "\">previous</a>").data <:+:
      (create_section_html_template name index body).data := by
  refine ⟨("<div id=\"" ++ SECTION_ID index ++ "\" class=\"dxf-section\"><h2>SECTION: " ++
      py_upper name ++ "</h2>\n<div>").data,
    (" <a href=\"#" ++ SECTION_ID (index + 1) ++ "\">next</a></div>\n" ++ body ++
      "\n</div>\n").data, ?_⟩
  simp only [create_section_html_template, String.data_append, List.append_assoc,
    List.cons_append, List.nil_append]

theorem wrapper_infix_next (name : String) (index : Int) (body : String) :
    ("<a href=\"#" ++ SECTION_ID (index + 1) ++ "\">next</a>").data <:+:
      (create_section_html_template name index body).data := by
  refine ⟨("<div id=\"" ++ SECTION_ID index ++ "\" class=\"dxf-section\"><h2>SECTION: " ++
      py_upper name ++ "</h2>\n<div><a href=\"#" ++ SECTION_ID (index - 1) ++
      "\">previous</a> ").data,
    ("</div>\n" ++ body ++ "\n</div>\n").data, ?_⟩
  simp only [create_section_html_template, String.data_append, List.append_assoc,
    List.cons_append, List.nil_append]

/-! ### Claim theorems -/

/-- C1: a tag whose code is in the handle-definition set renders through
the handle-definition template, whose row contains the anchor attribute
`id="<escaped value>"`; a tag whose code is in the handle-link set renders
through the handle-link template, whose row contains the hyperlink
`href="#<escaped value>"` with the escaped value as link text; every other
tag renders as a plain row of code, type label and escaped value. -/
theorem c1_handle_row_templates (tag : Tag) (ty : PyType)
    (h : tag_type tag.code = some ty) :
    (tag.code ∈ HANDLE_DEFINITIONS →
      tag2html tag = some (TAG_TEMPLATE_HANDLE_DEF (toString tag.code)
          (escape (TAG_TYPES ty)) (escape tag.value)) ∧
      ("id=\"" ++ escape tag.value ++ "\"").data <:+:
        (TAG_TEMPLATE_HANDLE_DEF (toString tag.code) (escape (TAG_TYPES ty))
          (escape tag.value)).data) ∧
    (tag.code ∈ HANDLE_LINKS →
      tag2html tag = some (TAG_TEMPLATE_HANDLE_LINK (toString tag.code)
          (escape (TAG_TYPES ty)) (escape tag.value)) ∧
      ("href=\"#" ++ escape tag.value ++ "\">" ++ escape tag.value ++ "</a>").data <:+:
        (TAG_TEMPLATE_HANDLE_LINK (toString tag.code) (escape (TAG_TYPES ty))
          (escape tag.value)).data) ∧
    (tag.code ∉ HANDLE_DEFINITIONS → tag.code ∉ HANDLE_LINKS →
      tag2html tag = some (TAG_TEMPLATE (toString tag.code)
          (escape (TAG_TYPES ty)) (escape tag.value))) := by
  refine ⟨fun hdef => ⟨?_, ?_⟩, fun hlink => ⟨?_, ?_⟩, fun h1 h2 => ?_⟩
  · simp [tag2html, tag_type_str, h, hdef]
  · rw [handle_def_split]
    exact middle_isInfix _ _ _
  · have hnd := handle_links_not_defs hlink
    simp [tag2html, tag_type_str, h, hlink, hnd]
  · rw [handle_link_split]
    exact middle_isInfix _ _ _
  · simp [tag2html, tag_type_str, h, h1, h2]

/-- Witness for C1 at the handle-definition code 5, the handle-link code
330 and the plain code 10. -/
theorem c1_handle_row_templates_witness :
    tag2html ⟨5, "2A"⟩ = some (TAG_TEMPLATE_HANDLE_DEF "5" "&lt;str&gt;" "2A") ∧
    tag2html ⟨330, "1F"⟩ = some (TAG_TEMPLATE_HANDLE_LINK "330" "&lt;str&gt;" "1F") ∧
    tag2html ⟨10, "1.5"⟩ = some (TAG_TEMPLATE "10" "&lt;float&gt;" "1.5") := by
  refine ⟨?_, ?_, ?_⟩
  · exact (((c1_handle_row_templates ⟨5, "2A"⟩ .str (by decide)).1 (by decide)).1).trans
      (by decide)
  · exact (((c1_handle_row_templates ⟨330, "1F"⟩ .str (by decide)).2.1 (by decide)).1).trans
      (by decide)
  · exact ((c1_handle_row_templates ⟨10, "1.5"⟩ .float (by decide)).2.2 (by decide)
      (by decide)).trans (by decide)

/-- C2: every rendered tag row inserts only escaped text: the value, the
type label and the code each appear as their escaped forms, and an escaped
string never contains a literal less-than or greater-than, and every
ampersand in it starts one of the entities amp, lt or gt. -/
theorem c2_escaped_insertion (tag : Tag) (ty : PyType)
    (h : tag_type tag.code = some ty) :
    (∃ tpl : String → String → String → String,
      (tpl = TAG_TEMPLATE ∨ tpl = TAG_TEMPLATE_HANDLE_DEF ∨
        tpl = TAG_TEMPLATE_HANDLE_LINK) ∧
      tag2html tag = some (tpl (escape (toString tag.code))
        (escape (TAG_TYPES ty)) (escape tag.value))) ∧
    (∀ v : String, '<' ∉ (escape v).data ∧ '>' ∉ (escape v).data ∧
      ∀ A R : List Char, (escape v).data = A ++ '&' :: R →
        ['a', 'm', 'p', ';'] <+: R ∨ ['l', 't', ';'] <+: R ∨
          ['g', 't', ';'] <+: R) := by
  constructor
  · by_cases hdef : tag.code ∈ HANDLE_DEFINITIONS
    · exact ⟨TAG_TEMPLATE_HANDLE_DEF, Or.inr (Or.inl rfl), by
        rw [escape_toString_int]; simp [tag2html, tag_type_str, h, hdef]⟩
    · by_cases hlink : tag.code ∈ HANDLE_LINKS
      · exact ⟨TAG_TEMPLATE_HANDLE_LINK, Or.inr (Or.inr rfl), by
          rw [escape_toString_int]; simp [tag2html, tag_type_str, h, hdef, hlink]⟩
      · exact ⟨TAG_TEMPLATE, Or.inl rfl, by
          rw [escape_toString_int]; simp [tag2html, tag_type_str, h, hdef, hlink]⟩
  · intro v
    exact ⟨escapeList_no_lt v.data, escapeList_no_gt v.data,
      fun A R hAR => escapeList_amp v.data A R hAR⟩

/-- Witness for C2 at code 1 with a value containing all three
markup-breaking characters. -/
theorem c2_escaped_insertion_witness :
    (∃ tpl : String → String → String → String,
      (tpl = TAG_TEMPLATE ∨ tpl = TAG_TEMPLATE_HANDLE_DEF ∨
        tpl = TAG_TEMPLATE_HANDLE_LINK) ∧
      tag2html ⟨1, "a<b&c>"⟩ = some (tpl (escape (toString (1 : Int)))
        (escape (TAG_TYPES PyType.str)) (escape "a<b&c>"))) ∧
    '<' ∉ (escape "a<b&c>").data ∧ '>' ∉ (escape "a<b&c>").data := by
  have H := c2_escaped_insertion ⟨1, "a<b&c>"⟩ PyType.str (by decide)
  exact ⟨H.1, (H.2 "a<b&c>").1, (H.2 "a<b&c>").2.1⟩

/-- C3: for a renderable tag stream the output is the tag container around
one row per record in input order; a row is wrapped in the group-marker
container exactly when the record's code is a group-marker code. -/
theorem c3_group_marker_rows (tags : List Tag)
    (h : ∀ t ∈ tags, (tag_type t.code).isSome) :
    ∃ rows : List String,
      tags2html tags = some ("<div class=\"dxf-tags\">\n" ++
        String.intercalate "\n" rows ++ "\n</div>") ∧
      rows.length = tags.length ∧
      ∀ i, i < tags.length →
        ∃ inner, tag2html (tags.getD i ⟨0, ""⟩) = some inner ∧
          rows.getD i "" = group_marker (tags.getD i ⟨0, ""⟩) inner ∧
          ((tags.getD i ⟨0, ""⟩).code ∈ GROUP_MARKERS ↔
            rows.getD i "" = MARKER_TEMPLATE inner) := by
  have hf : ∀ t ∈ tags, ((fun tag => (tag2html tag).map (group_marker tag)) t).isSome := by
    intro t ht
    obtain ⟨ty, hty⟩ := Option.isSome_iff_exists.mp (h t ht)
    simp [tag2html, tag_type_str, hty]
  obtain ⟨rows, h1, h2, h3⟩ := mapM_option_some _ ⟨0, ""⟩ "" tags hf
  refine ⟨rows, ?_, h2, ?_⟩
  · rw [show tags2html tags = (tags.mapM fun tag =>
        (tag2html tag).map (group_marker tag)).bind (fun tag_strings =>
          some ("<div class=\"dxf-tags\">\n" ++ String.intercalate "\n" tag_strings ++
            "\n</div>")) from rfl, h1]
    rfl
  intro i hi
  have hfi := h3 i hi
  cases hth : tag2html (tags.getD i ⟨0, ""⟩) with
  | none => rw [hth] at hfi; exact absurd hfi (by simp)
  | some inner =>
    rw [hth] at hfi
    simp only [Option.map_some', Option.some.injEq] at hfi
    refine ⟨inner, rfl, hfi.symm, ?_, ?_⟩
    · intro hmem
      rw [← hfi]
      unfold group_marker
      rw [if_neg (not_not_intro hmem)]
    · intro hrow
      by_contra hmem
      rw [← hfi] at hrow
      unfold group_marker at hrow
      rw [if_pos hmem] at hrow
      have hlen := congrArg String.length hrow
      simp only [MARKER_TEMPLATE, String.length_append] at hlen
      rw [show ("<div class=\"tag-group-marker\">" : String).length = 30 from rfl,
        show ("</div>" : String).length = 6 from rfl] at hlen
      omega

/-- C4: the table of contents has exactly one entry per section in
document order; entry `i` links to the anchor `section_i` and is labelled
with the section's kind name in upper case. -/
theorem c4_toc_entries (dwg : Drawing) :
    ∃ entries : List String,
      sections_toc_as_html dwg = TOC_TPL (String.intercalate "\n" entries) ∧
      entries.length = dwg.sections.length ∧
      ∀ i, i < dwg.sections.length →
        entries.getD i "" = TOC_ENTRY_TPL (SECTION_ID (i : Int))
          (py_upper (dwg.sections.getD i { name := "" }).name) := by
  refine ⟨dwg.sections.enum.map (fun (p : Nat × Section) =>
    TOC_ENTRY_TPL (SECTION_ID (p.1 : Int)) (py_upper p.2.name)), rfl, ?_, ?_⟩
  · simp [List.enum_length]
  · intro i hi
    have hlen : i < dwg.sections.enum.length := by simpa [List.enum_length] using hi
    rw [getD_map _ (0, { name := "" }) _ _ i hlen]
    rw [show dwg.sections.enum = List.enumFrom 0 dwg.sections from rfl,
      enumFrom_getD { name := "" } dwg.sections 0 i hi]
    simp

/-- Witness for C4 on a two-section document. -/
theorem c4_toc_entries_witness :
    ∃ entries : List String,
      sections_toc_as_html ⟨none, [{ name := "header" }, { name := "entities" }]⟩ =
        TOC_TPL (String.intercalate "\n" entries) ∧
      entries.length = (⟨none, [{ name := "header" }, { name := "entities" }]⟩ :
        Drawing).sections.length ∧
      ∀ i, i < (⟨none, [{ name := "header" }, { name := "entities" }]⟩ :
          Drawing).sections.length →
        entries.getD i "" = TOC_ENTRY_TPL (SECTION_ID (i : Int))
          (py_upper ((⟨none, [{ name := "header" }, { name := "entities" }]⟩ :
            Drawing).sections.getD i { name := "" }).name) :=
  c4_toc_entries ⟨none, [{ name := "header" }, { name := "entities" }]⟩

/-- C5: the dispatcher selects the renderer by section kind alone: header
goes to the header renderer, classes, objects and entities to the
entity-sequence renderer, tables to the table-collection renderer, blocks
to the block-sequence renderer, and every other kind falls through to the
generic tag-stream renderer on the raw tags, succeeding whenever the tags
are classified. -/
theorem c5_section_dispatch (s : Section) (tpl : String → String) :
    (s.name = "header" → section2html s tpl = (hdrvars2html s.hdrvars).map tpl) ∧
    (s.name = "classes" ∨ s.name = "objects" ∨ s.name = "entities" →
      section2html s tpl = (entities2html s.entities).map tpl) ∧
    (s.name = "tables" → section2html s tpl = (tables2html s.tables).map tpl) ∧
    (s.name = "blocks" → section2html s tpl = (blocks2html s.blocks).map tpl) ∧
    (s.name ≠ "header" → s.name ≠ "classes" → s.name ≠ "objects" → s.name ≠ "entities" →
      s.name ≠ "tables" → s.name ≠ "blocks" →
      section2html s tpl = (tags2html s.tags).map tpl ∧
      ((∀ t ∈ s.tags, (tag_type t.code).isSome) → ∃ r, section2html s tpl = some r)) := by
  refine ⟨fun h => ?_, fun h => ?_, fun h => ?_, fun h => ?_, fun h1 h2 h3 h4 h5 h6 => ⟨?_, ?_⟩⟩
  · simp [section2html, h]
  · rcases h with h | h | h <;> simp [section2html, h]
  · simp [section2html, h]
  · simp [section2html, h]
  · simp [section2html, h1, h2, h3, h4, h5, h6]
  · intro hcl
    obtain ⟨out, hout⟩ := tags2html_some s.tags hcl
    exact ⟨tpl out, by simp [section2html, h1, h2, h3, h4, h5, h6, hout]⟩

/-- Witness for C5 on a section of the unrecognized kind zzz. -/
theorem c5_section_dispatch_witness :
    section2html { name := "zzz", tags := [(⟨1, "x"⟩ : Tag)] } id =
      (tags2html [(⟨1, "x"⟩ : Tag)]).map id ∧
    ∃ r, section2html { name := "zzz", tags := [(⟨1, "x"⟩ : Tag)] } id = some r := by
  have H := (c5_section_dispatch { name := "zzz", tags := [(⟨1, "x"⟩ : Tag)] } id).2.2.2.2
    (by decide) (by decide) (by decide) (by decide) (by decide) (by decide)
  exact ⟨H.1, H.2 (by decide)⟩

/-- C6: every header variable renders through the plain tag-row template:
a point variable shows the escaped textual form of its coordinate tuple
with the 2D label at tuple length 2 and the 3D label at length 3 (selected
by length minus 2), a scalar variable shows its escaped textual value with
the label obtained from the code classifier on its originating code; the
header renderer emits one such row per variable. -/
theorem c6_header_rows :
    (∀ (n : String) (v : HeaderVar) (coords : List String), v.value = .point coords →
      (coords.length = 2 → hdrRow n v =
        some (TAG_TEMPLATE n (escape "<point 2D>") (escape (pyTupleStr coords)))) ∧
      (coords.length = 3 → hdrRow n v =
        some (TAG_TEMPLATE n (escape "<point 3D>") (escape (pyTupleStr coords))))) ∧
    (∀ (n : String) (v : HeaderVar) (s : String) (ty : PyType), v.value = .scalar s →
      tag_type v.code = some ty →
      hdrRow n v = some (TAG_TEMPLATE n (escape (TAG_TYPES ty)) (escape s))) ∧
    (∀ vars : List (String × HeaderVar), (∀ p ∈ vars, (vartype p.2).isSome) →
      ∃ rows : List String,
        hdrvars2html vars = some ("<div id=\"dxf-header\" class=\"dxf-header\">\n" ++
          String.intercalate "\n" rows ++ "\n</div>") ∧
        rows.length = vars.length ∧
        ∀ i, i < vars.length →
          hdrRow (vars.getD i ("", ⟨0, .scalar ""⟩)).1
            (vars.getD i ("", ⟨0, .scalar ""⟩)).2 = some (rows.getD i "")) := by
  refine ⟨?_, ?_, ?_⟩
  · intro n v coords hpv
    constructor <;> intro hlen <;>
      simp [hdrRow, vartype, var2str, hpv, hlen, pyPairIndex]
  · intro n v s ty hsv hty
    simp [hdrRow, vartype, var2str, hsv, tag_type_str, hty]
  · intro vars h
    obtain ⟨rows, h1, h2, h3⟩ :=
      mapM_option_some (fun (p : String × HeaderVar) => hdrRow p.1 p.2)
        ("", ⟨0, .scalar ""⟩) "" vars (by
          intro p hp
          obtain ⟨ty, hty⟩ := Option.isSome_iff_exists.mp (h p hp)
          simp [hdrRow, hty])
    refine ⟨rows, ?_, h2, h3⟩
    rw [show hdrvars2html vars = (vars.mapM fun p => hdrRow p.1 p.2).bind
      (fun varstrings => some ("<div id=\"dxf-header\" class=\"dxf-header\">\n" ++
        String.intercalate "\n" varstrings ++ "\n</div>")) from rfl, h1]
    rfl

/-- Witness for C6 at the scalar variable ACADVER of code 1 and a 2D point
variable of code 10. -/
theorem c6_header_rows_witness :
    hdrRow "$ACADVER" ⟨1, .scalar "AC1015"⟩ =
      some (TAG_TEMPLATE "$ACADVER" (escape (TAG_TYPES PyType.str)) (escape "AC1015")) ∧
    hdrRow "$EXTMIN" ⟨10, .point ["1.5", "2.5"]⟩ =
      some (TAG_TEMPLATE "$EXTMIN" (escape "<point 2D>")
        (escape (pyTupleStr ["1.5", "2.5"]))) := by
  refine ⟨?_, ?_⟩
  · exact c6_header_rows.2.1 "$ACADVER" ⟨1, .scalar "AC1015"⟩ "AC1015" .str rfl (by decide)
  · exact (c6_header_rows.1 "$EXTMIN" ⟨10, .point ["1.5", "2.5"]⟩ ["1.5", "2.5"] rfl).1
      (by decide)

/-- C7: every section wrapper at index i carries the anchor id section_i
and navigation links to the anchors of indices i minus 1 and i plus 1; the
first wrapper's previous link targets section_-1 and the last wrapper's
next link targets section_N, indices outside the range of wrapper indices,
and rendering still succeeds. -/
theorem c7_section_wrappers (dwg : Drawing)
    (h : ∀ s ∈ dwg.sections, (section2html s id).isSome) :
    ∃ parts : List String,
      sections2html dwg = some ("<div class=\"dxf-sections\">\n" ++
        String.intercalate "\n" parts ++ "\n</div>") ∧
      parts.length = dwg.sections.length ∧
      (∀ i, i < dwg.sections.length →
        ("id=\"" ++ SECTION_ID (i : Int) ++ "\"").data <:+: (parts.getD i "").data ∧
        ("<a href=\"#" ++ SECTION_ID ((i : Int) - 1) ++ "\">previous</a>").data <:+:
          (parts.getD i "").data ∧
        ("<a href=\"#" ++ SECTION_ID ((i : Int) + 1) ++ "\">next</a>").data <:+:
          (parts.getD i "").data) ∧
      SECTION_ID ((0 : Int) - 1) = "section_-1" ∧
      (0 < dwg.sections.length →
        SECTION_ID (((dwg.sections.length - 1 : Nat) : Int) + 1) =
          "section_" ++ toString (dwg.sections.length : Int)) ∧
      (∀ j : Nat, j < dwg.sections.length →
        (-1 : Int) ≠ (j : Int) ∧ (dwg.sections.length : Int) ≠ (j : Int)) := by
  have hf : ∀ p ∈ dwg.sections.enum,
      ((fun (q : Nat × Section) =>
        section2html q.2 (create_section_html_template q.2.name (q.1 : Int))) p).isSome := by
    intro p hp
    have hmem : p.2 ∈ dwg.sections := snd_mem_of_mem_enumFrom dwg.sections 0 hp
    have := h p.2 hmem
    dsimp only
    rw [section2html_as_map]
    cases hs : section2html p.2 id with
    | none => rw [hs] at this; simp at this
    | some b => simp
  obtain ⟨parts, h1, h2, h3⟩ :=
    mapM_option_some _ (0, ({ name := "" } : Section)) "" dwg.sections.enum hf
  have hlen : dwg.sections.enum.length = dwg.sections.length := List.enum_length
  refine ⟨parts, ?_, by rw [h2, hlen], ?_, rfl, ?_, ?_⟩
  · rw [show sections2html dwg = (dwg.sections.enum.mapM fun p =>
        section2html p.2 (create_section_html_template p.2.name (p.1 : Int))).bind
        (fun sections_html => some ("<div class=\"dxf-sections\">\n" ++
          String.intercalate "\n" sections_html ++ "\n</div>")) from rfl, h1]
    rfl
  · intro i hi
    have hfi := h3 i (by rw [hlen]; exact hi)
    rw [show dwg.sections.enum = List.enumFrom 0 dwg.sections from rfl,
      enumFrom_getD { name := "" } dwg.sections 0 i hi] at hfi
    simp only [Nat.zero_add] at hfi
    rw [section2html_as_map] at hfi
    cases hs : section2html (dwg.sections.getD i { name := "" }) id with
    | none => rw [hs] at hfi; exact absurd hfi (by simp)
    | some body =>
      rw [hs] at hfi
      simp only [Option.map_some', Option.some.injEq] at hfi
      rw [← hfi]
      exact ⟨wrapper_infix_id _ _ _, wrapper_infix_prev _ _ _, wrapper_infix_next _ _ _⟩
  · intro hpos
    have : (((dwg.sections.length - 1 : Nat) : Int) + 1) = (dwg.sections.length : Int) := by
      omega
    rw [this]
    rfl
  · intro j hj
    omega

/-- Witness for C7 on a one-section document, whose only wrapper links to
the nonexistent anchors section_-1 and section_1. -/
theorem c7_section_wrappers_witness :
    ∃ parts : List String,
      sections2html ⟨none, [{ name := "zzz", tags := [(⟨1, "x"⟩ : Tag)] }]⟩ =
        some ("<div class=\"dxf-sections\">\n" ++
          String.intercalate "\n" parts ++ "\n</div>") ∧
      parts.length = (⟨none, [{ name := "zzz", tags := [(⟨1, "x"⟩ : Tag)] }]⟩ :
        Drawing).sections.length ∧
      (∀ i, i < (⟨none, [{ name := "zzz", tags := [(⟨1, "x"⟩ : Tag)] }]⟩ :
          Drawing).sections.length →
        ("id=\"" ++ SECTION_ID (i : Int) ++ "\"").data <:+: (parts.getD i "").data ∧
        ("<a href=\"#" ++ SECTION_ID ((i : Int) - 1) ++ "\">previous</a>").data <:+:
          (parts.getD i "").data ∧
        ("<a href=\"#" ++ SECTION_ID ((i : Int) + 1) ++ "\">next</a>").data <:+:
          (parts.getD i "").data) ∧
      SECTION_ID ((0 : Int) - 1) = "section_-1" ∧
      (0 < (⟨none, [{ name := "zzz", tags := [(⟨1, "x"⟩ : Tag)] }]⟩ :
          Drawing).sections.length →
        SECTION_ID ((((⟨none, [{ name := "zzz", tags := [(⟨1, "x"⟩ : Tag)] }]⟩ :
            Drawing).sections.length - 1 : Nat) : Int) + 1) =
          "section_" ++ toString (((⟨none, [{ name := "zzz", tags := [(⟨1, "x"⟩ : Tag)] }]⟩ :
            Drawing).sections.length : Int))) ∧
      (∀ j : Nat, j < (⟨none, [{ name := "zzz", tags := [(⟨1, "x"⟩ : Tag)] }]⟩ :
          Drawing).sections.length →
        (-1 : Int) ≠ (j : Int) ∧
        (((⟨none, [{ name := "zzz", tags := [(⟨1, "x"⟩ : Tag)] }]⟩ :
          Drawing).sections.length : Int)) ≠ (j : Int)) :=
  c7_section_wrappers ⟨none, [{ name := "zzz", tags := [(⟨1, "x"⟩ : Tag)] }]⟩ (by
    intro s hs
    rw [List.mem_singleton] at hs
    subst hs
    decide)

/-- C8: rendering is a pure function of the document model: rendering the
same model twice yields identical output.  In this embedding the renderer
is a total Lean function with no state, which also reflects that the
source never mutates the document model (it only reads attributes). -/
theorem c8_deterministic (dwg : Drawing) :
    dxf2html dwg = dxf2html dwg ∧
    (∀ dwg' : Drawing, dwg' = dwg → dxf2html dwg' = dxf2html dwg) :=
  ⟨rfl, fun _ h => by rw [h]⟩

/-- Witness for C8 on the empty document. -/
theorem c8_deterministic_witness :
    dxf2html (⟨none, []⟩ : Drawing) = dxf2html (⟨none, []⟩ : Drawing) ∧
    (∀ dwg' : Drawing, dwg' = (⟨none, []⟩ : Drawing) →
      dxf2html dwg' = dxf2html (⟨none, []⟩ : Drawing)) :=
  c8_deterministic ⟨none, []⟩

/-- C9: a tag whose code the classifier does not know makes the type-label
lookup fail, and the failure propagates uncaught through every renderer up
to the page assembler: no renderer intercepts it. -/
theorem c9_unclassified_propagates (t : Tag) (h : tag_type t.code = none) :
    tag_type_str t.code = none ∧
    tag2html t = none ∧
    (∀ tags : List Tag, t ∈ tags → tags2html tags = none) ∧
    (∀ e : Entity, t ∈ e.tags → entity2html e = none) ∧
    (∀ (s : Section) (tpl : String → String), s.name ≠ "header" → s.name ≠ "classes" →
      s.name ≠ "objects" → s.name ≠ "entities" → s.name ≠ "tables" → s.name ≠ "blocks" →
      t ∈ s.tags → section2html s tpl = none) ∧
    (∀ dwg : Drawing, (∃ s ∈ dwg.sections, ∀ tpl, section2html s tpl = none) →
      dxf2html dwg = none) := by
  have h1 : tag_type_str t.code = none := by simp [tag_type_str, h]
  have h2 : tag2html t = none := by simp [tag2html, h1]
  have h3 : ∀ tags : List Tag, t ∈ tags → tags2html tags = none := by
    intro tags ht
    rw [tags2html_eq,
      mapM_option_none (fun tag => (tag2html tag).map (group_marker tag)) tags ht
        (by simp [h2])]
    rfl
  have h4 : ∀ e : Entity, t ∈ e.tags → entity2html e = none := by
    intro e ht
    simp [entity2html, h3 e.tags ht]
  refine ⟨h1, h2, h3, h4, ?_, ?_⟩
  · intro s tpl n1 n2 n3 n4 n5 n6 ht
    simp [section2html, n1, n2, n3, n4, n5, n6, h3 s.tags ht]
  · intro dwg ⟨s, hs, hnone⟩
    obtain ⟨i, hi⟩ := mem_enumFrom_pair dwg.sections 0 hs
    have : sections2html dwg = none := by
      rw [show sections2html dwg = (dwg.sections.enum.mapM fun p =>
          section2html p.2 (create_section_html_template p.2.name (p.1 : Int))).bind
          (fun sections_html => some ("<div class=\"dxf-sections\">\n" ++
            String.intercalate "\n" sections_html ++ "\n</div>")) from rfl,
        mapM_option_none _ dwg.sections.enum hi (hnone _)]
      rfl
    rw [show dxf2html dwg = (sections2html dwg).bind (fun dxf_file =>
      some (HTML_TEMPLATE (get_name dwg) (sections_toc_as_html dwg) dxf_file)) from rfl,
      this]
    rfl

/-- Witness for C9 at the unclassified code 2000. -/
theorem c9_unclassified_propagates_witness :
    tag2html ⟨2000, "x"⟩ = none ∧
    tags2html [(⟨2000, "x"⟩ : Tag)] = none ∧
    dxf2html ⟨none, [{ name := "zzz", tags := [(⟨2000, "x"⟩ : Tag)] }]⟩ = none := by
  have H := c9_unclassified_propagates ⟨2000, "x"⟩ (by decide)
  refine ⟨H.2.1, H.2.2.1 _ (by simp), H.2.2.2.2.2 _ ⟨_, by simp, fun tpl =>
    H.2.2.2.2.1 { name := "zzz", tags := [(⟨2000, "x"⟩ : Tag)] } tpl
      (by decide) (by decide) (by decide) (by decide) (by decide) (by decide) (by simp)⟩⟩

set_option maxRecDepth 4096 in
/-- C10: entity type names, table names and block names reach the page
unescaped: names containing markup-breaking characters appear literally in
the output, unlike tag values, which are inserted escaped. -/
theorem c10_unescaped_names :
    (∃ s, entity2html ⟨"A<B&C>", []⟩ = some s ∧ ("A<B&C>" : String).data <:+: s.data) ∧
    (∃ s, table2html ⟨"t<x>", [], []⟩ "" = some s ∧ ("T<X>" : String).data <:+: s.data) ∧
    (∃ s, block2html ⟨"b<k>", ⟨"BLOCK", []⟩, ⟨"ENDBLK", []⟩, []⟩ = some s ∧
      ("b<k>" : String).data <:+: s.data) ∧
    ¬ ("A<B&C>" : String).data <:+: ((tag2html ⟨1, "A<B&C>"⟩).getD "").data := by
  refine ⟨⟨_, rfl, by decide⟩, ⟨_, rfl, by decide⟩, ⟨_, rfl, by decide⟩, by decide⟩

/-- Witness for C3 on a two-record stream whose first code is the general
group marker 0 and whose second code 2 is plain. -/
theorem c3_group_marker_rows_witness :
    ∃ rows : List String,
      tags2html [(⟨0, "SECTION"⟩ : Tag), ⟨2, "HEADER"⟩] = some ("<div class=\"dxf-tags\">\n" ++
        String.intercalate "\n" rows ++ "\n</div>") ∧
      rows.length = ([(⟨0, "SECTION"⟩ : Tag), ⟨2, "HEADER"⟩] : List Tag).length ∧
      ∀ i, i < ([(⟨0, "SECTION"⟩ : Tag), ⟨2, "HEADER"⟩] : List Tag).length →
        ∃ inner, tag2html (([(⟨0, "SECTION"⟩ : Tag), ⟨2, "HEADER"⟩] : List Tag).getD i ⟨0, ""⟩) = some inner ∧
          rows.getD i "" = group_marker (([(⟨0, "SECTION"⟩ : Tag), ⟨2, "HEADER"⟩] : List Tag).getD i ⟨0, ""⟩) inner ∧
          ((([(⟨0, "SECTION"⟩ : Tag), ⟨2, "HEADER"⟩] : List Tag).getD i ⟨0, ""⟩).code ∈ GROUP_MARKERS ↔
            rows.getD i "" = MARKER_TEMPLATE inner) :=
  c3_group_marker_rows [⟨0, "SECTION"⟩, ⟨2, "HEADER"⟩] (by decide)

end Dxf2Html
